import Mathlib

/-!
Shallow embedding of `src/main.rs` (agentARChecker): a CLI client that
queries an agent daemon over a Unix socket with a 4-byte little-endian
length-prefixed framing protocol, and retries failed exchanges per agent
identifier up to a fixed bound.

Modelling choices:
* A connected stream is a pair `(inp, out)`: the bytes available to read
  and the bytes written so far.  Bytes are `Nat` values (below 256 on real
  wires, but nothing in the code depends on the bound).
* `read_exact` on a byte list succeeds iff enough bytes remain, mirroring
  `std::io::Read::read_exact`, which errors with `UnexpectedEof` on a
  short stream.
* In the source every failure is a single string-typed `ShowError`; the
  driver never inspects the string.  The inductive `ShowError` below tags
  which program point produced the message (connect, the not-connected
  guard, read/write faults, `String::from_utf8`, and the
  "Agent is not connected" sentinel); this is faithful because the
  distinct program points produce distinct message strings and the driver
  matches only on `Ok`/`Err`.
* The per-identifier `while attempts < MAX_ATTEMPTS` loop of `main` is
  modelled with explicit fuel `MAX_ATTEMPTS - attempts`, so the loop body
  recursion is structural and traces evaluate by `decide`.
* Console output is ignored; the observable behaviour of the driver is
  recorded as a trace of `Event`s (attempts, sleeps, reports).
-/

namespace AgentARChecker

/-! ## Wire-level helpers: little-endian u32, read_exact -/

/-- Little-endian bytes of a 32-bit value: `(n as u32).to_le_bytes()` for
`n` already reduced below `2 ^ 32`. -/
def toLeBytesU32 (n : Nat) : List Nat :=
  [n % 256, n / 256 % 256, n / 65536 % 256, n / 16777216 % 256]

/-- Recombination of four little-endian bytes,
`u32::from_le_bytes(header)`.  The `getD` defaults never fire on the
4-byte headers produced by `read_exact`. -/
def leNat (b : List Nat) : Nat :=
  b.getD 0 0 + 256 * b.getD 1 0 + 65536 * b.getD 2 0 + 16777216 * b.getD 3 0

/-- Model of `Read::read_exact` on a byte-list stream: take exactly `n`
bytes and return them with the rest of the stream, or fail
(`UnexpectedEof`) if the stream is shorter than `n`. -/
def readExact (n : Nat) (s : List Nat) : Option (List Nat × List Nat) :=
  if n ≤ s.length then some (s.take n, s.drop n) else none

/-! ## Errors and the socket wrapper -/

/-- Model of the `ShowError(String)` type of the source, tagged by the
program point that produced the message string (the strings at distinct
points differ, and the driver matches only on `Ok`/`Err`, so the tag
loses nothing). -/
inductive ShowError where
  /-- Failure of `UnixStream::connect` in `SocketInstance::new`. -/
  | connectionError
  /-- Firing of the `ok_or(ShowError("Socket not connected"))` guard. -/
  | notConnected
  /-- Fault of `write_all` or `read_exact`, including short reads. -/
  | ioError
  /-- Rejection of the received bytes by `String::from_utf8`. -/
  | decodeError
  /-- Sentinel `ShowError("Agent is not connected")` from `process_agent`. -/
  | agentUnreachable
deriving DecidableEq

/-- State of a `SocketInstance`: `stream` is `none` before connect and
after close, and otherwise holds the readable input and the written
output. -/
structure SocketInstance where
  stream : Option (List Nat × List Nat)
deriving DecidableEq

/-- Model of `SocketInstance::send`: guard on a live stream, then write
the 4-byte little-endian length header (`msg.len() as u32`) followed by
the payload. -/
def SocketInstance.send (sock : SocketInstance) (msg : List Nat) :
    Except ShowError SocketInstance :=
  match sock.stream with
  | none => Except.error ShowError.notConnected
  | some (inp, out) =>
      Except.ok ⟨some (inp, out ++ toLeBytesU32 (msg.length % 4294967296) ++ msg)⟩

/-- Model of `SocketInstance::receive`: guard on a live stream,
`read_exact` a 4-byte header, decode it as little-endian `u32`, then
`read_exact` exactly that many payload bytes. -/
def SocketInstance.receive (sock : SocketInstance) :
    Except ShowError (List Nat × SocketInstance) :=
  match sock.stream with
  | none => Except.error ShowError.notConnected
  | some (inp, out) =>
      match readExact 4 inp with
      | none => Except.error ShowError.ioError
      | some (header, rest) =>
          match readExact (leNat header) rest with
          | none => Except.error ShowError.ioError
          | some (buffer, rest₂) => Except.ok (buffer, ⟨some (rest₂, out)⟩)

/-! ## UTF-8 (Rust `String::from_utf8` and `str::as_bytes`) -/

/-- A UTF-8 continuation byte, `0x80` to `0xBF`. -/
def isCont (b : Nat) : Prop := 128 ≤ b ∧ b ≤ 191

instance (b : Nat) : Decidable (isCont b) := by unfold isCont; infer_instance

/-- Standard UTF-8 decoding (the validation done by `String::from_utf8`):
rejects stray continuation bytes, overlong encodings, surrogate code
points and code points above `0x10FFFF`. -/
def utf8Decode : List Nat → Option (List Char)
  | [] => some []
  | b₀ :: rest =>
      if b₀ ≤ 127 then
        (utf8Decode rest).map (fun cs => Char.ofNat b₀ :: cs)
      else if 194 ≤ b₀ ∧ b₀ ≤ 223 then
        match rest with
        | b₁ :: rest₁ =>
            if isCont b₁ then
              (utf8Decode rest₁).map (fun cs => Char.ofNat ((b₀ - 192) * 64 + (b₁ - 128)) :: cs)
            else none
        | [] => none
      else if 224 ≤ b₀ ∧ b₀ ≤ 239 then
        match rest with
        | b₁ :: b₂ :: rest₂ =>
            if isCont b₁ ∧ isCont b₂ then
              let cp := (b₀ - 224) * 4096 + (b₁ - 128) * 64 + (b₂ - 128)
              if 2048 ≤ cp ∧ ¬ (55296 ≤ cp ∧ cp ≤ 57343) then
                (utf8Decode rest₂).map (fun cs => Char.ofNat cp :: cs)
              else none
            else none
        | _ => none
      else if 240 ≤ b₀ ∧ b₀ ≤ 244 then
        match rest with
        | b₁ :: b₂ :: b₃ :: rest₃ =>
            if isCont b₁ ∧ isCont b₂ ∧ isCont b₃ then
              let cp := (b₀ - 240) * 262144 + (b₁ - 128) * 4096 + (b₂ - 128) * 64 + (b₃ - 128)
              if 65536 ≤ cp ∧ cp ≤ 1114111 then
                (utf8Decode rest₃).map (fun cs => Char.ofNat cp :: cs)
              else none
            else none
        | _ => none
      else none

/-- UTF-8 encoding of one scalar value (`str::as_bytes`, per char). -/
def utf8EncodeChar (c : Char) : List Nat :=
  let n := c.toNat
  if n ≤ 127 then [n]
  else if n ≤ 2047 then [192 + n / 64, 128 + n % 64]
  else if n ≤ 65535 then [224 + n / 4096, 128 + n / 64 % 64, 128 + n % 64]
  else [240 + n / 262144, 128 + n / 4096 % 64, 128 + n / 64 % 64, 128 + n % 64]

/-- Model of `str::as_bytes`: UTF-8 encoding of a character sequence. -/
def utf8Encode (s : List Char) : List Nat :=
  (s.map utf8EncodeChar).flatten

/-! ## Response-text operations: splitn on the space character,
`str::contains` -/

/-- The space character `U+0020`, the separator passed to `splitn`. -/
def spaceChar : Char := Char.ofNat 32

/-- Model of `str::starts_with` on character lists. -/
def startsWith : List Char → List Char → Bool
  | _, [] => true
  | [], _ :: _ => false
  | a :: as, b :: bs => a = b && startsWith as bs

/-- Model of `haystack.contains(needle)` for string needles (Rust
`str::contains`): some suffix of the haystack starts with the needle. -/
def containsSub : List Char → List Char → Bool
  | [], needle => startsWith [] needle
  | c :: t, needle => startsWith (c :: t) needle || containsSub t needle

/-- Model of `rec_msg.splitn(2, <space>)` followed by the two
`parts.next()` calls: the text before the first space, and `some`
remainder after it when a space exists (`parts.next()` returning `None`,
hence `unwrap_or` taking over, otherwise). -/
def splitnTwoSpace : List Char → List Char × Option (List Char)
  | [] => ([], none)
  | c :: t =>
      if c = spaceChar then ([], some t)
      else
        let p := splitnTwoSpace t
        (c :: p.1, p.2)

/-! ## Constants -/

def COMPONENT : List Char := "com".data

def GETCONFIG_COMMAND : List Char := "getconfig".data

def CONFIGURATION : List Char := "active-response".data

def MAX_ATTEMPTS : Nat := 3

/-- The value of `RECONNECT_DELAY` in seconds (`Duration::from_secs(1)`). -/
def RECONNECT_DELAY_SECS : Nat := 1

/-! ## process_agent -/

/-- Request text built by `process_agent`:
`format!("{} {} {} {}", agent_id, COMPONENT, GETCONFIG_COMMAND,
CONFIGURATION)`. -/
def requestMsg (agent_id : List Char) : List Char :=
  agent_id ++ " ".data ++ COMPONENT ++ " ".data ++ GETCONFIG_COMMAND ++ " ".data ++ CONFIGURATION

/-- Success summary returned by `process_agent`:
`format!("rec_msg_ok: {} | rec_msg_body: {}", ..)`. -/
def okResponse (ok body : List Char) : List Char :=
  "rec_msg_ok: ".data ++ ok ++ " | rec_msg_body: ".data ++ body

/-- Substring matched against the response body. -/
def cannotSendNeedle : List Char := "Cannot send request".data

/-- Tail of `process_agent` from the `splitn` on the decoded message:
split off the status token, and either return the
`ShowError("Agent is not connected")` sentinel (status `"err"` and body
containing `"Cannot send request"`) or the formatted success summary. -/
def classify (rec_msg : List Char) : Except ShowError (List Char) :=
  let parts := splitnTwoSpace rec_msg
  let rec_msg_ok := parts.1
  let rec_msg_body := parts.2.getD []
  if rec_msg_ok = "err".data ∧ containsSub rec_msg_body cannotSendNeedle = true then
    Except.error ShowError.agentUnreachable
  else
    Except.ok (okResponse rec_msg_ok rec_msg_body)

/-- Model of `process_agent`: connect (the environment `conn` says
whether `UnixStream::connect` succeeds and which response bytes the
daemon will make readable), send the framed request, receive the framed
response, decode it as UTF-8 and classify it.  Each `?` of the source is
a `match` propagating the error. -/
def process_agent (agent_id : List Char) (conn : Option (List Nat)) :
    Except ShowError (List Char) :=
  match conn with
  | none => Except.error ShowError.connectionError
  | some inp =>
      match SocketInstance.send ⟨some (inp, [])⟩ (utf8Encode (requestMsg agent_id)) with
      | Except.error e => Except.error e
      | Except.ok sock =>
          match sock.receive with
          | Except.error e => Except.error e
          | Except.ok (rec_msg_bytes, _) =>
              match utf8Decode rec_msg_bytes with
              | none => Except.error ShowError.decodeError
              | some rec_msg => classify rec_msg

/-! ## The driver loop of `main` -/

/-- Observable driver actions for one batch run. -/
inductive Event where
  /-- Call number `n` (1-based) of `process_agent` for `id`. -/
  | attempt (id : List Char) (n : Nat)
  /-- The `Ok` branch: response printed, loop left by `break`. -/
  | success (id : List Char) (resp : List Char)
  /-- The else branch after failed attempt `n`: "Retrying..." printed and
  `thread::sleep(RECONNECT_DELAY)` executed. -/
  | retrySleep (id : List Char) (n : Nat)
  /-- The `attempts >= MAX_ATTEMPTS` branch: final error printed for `id`. -/
  | finalFailure (id : List Char) (e : ShowError)
deriving DecidableEq

/-- Body of `while attempts < MAX_ATTEMPTS`, with `fuel` standing for
`MAX_ATTEMPTS - attempts` so that the recursion is structural; `env k`
is the connection outcome of call number `k` (0-based) of
`process_agent`. -/
def agentAttempts (id : List Char) (env : Nat → Option (List Nat)) :
    Nat → Nat → List Event
  | _, 0 => []
  | attempts, fuel + 1 =>
      match process_agent id (env attempts) with
      | Except.ok r => [Event.attempt id (attempts + 1), Event.success id r]
      | Except.error e =>
          if attempts + 1 ≥ MAX_ATTEMPTS then
            [Event.attempt id (attempts + 1), Event.finalFailure id e]
          else
            Event.attempt id (attempts + 1) :: Event.retrySleep id (attempts + 1) ::
              agentAttempts id env (attempts + 1) fuel

/-- Processing of one identifier in `main`: the retry loop started with
`attempts = 0`. -/
def agentLoop (id : List Char) (env : Nat → Option (List Nat)) : List Event :=
  agentAttempts id env 0 MAX_ATTEMPTS

/-- Loop `for agent_id in agent_ids` of `main` over the (already
blank-filtered) identifiers; `env id k` gives the connection outcome for
attempt `k` of identifier `id`. -/
def mainLoop : List (List Char) → (List Char → Nat → Option (List Nat)) → List Event
  | [], _ => []
  | id :: rest, env => agentLoop id (env id) ++ mainLoop rest env

/-! ## Definition taken from the words of the spec (for claim C5 only):
split at the first *whitespace* character, not the first space. -/

/-- Modelled from the spec: "split at the first whitespace character into
a status token and a body (body may be empty if no whitespace is
present)". -/
def specSplitFirstWs : List Char → List Char × List Char
  | [] => ([], [])
  | c :: t =>
      if c.isWhitespace then ([], t)
      else
        let p := specSplitFirstWs t
        (c :: p.1, p.2)

end AgentARChecker

namespace AgentARChecker

deriving instance DecidableEq for Except

/-- Retryable failure classes named by the spec: connection failures,
framed-I/O failures and the agent-unreachable sentinel. -/
def retryable (e : ShowError) : Prop :=
  e = ShowError.connectionError ∨ e = ShowError.ioError ∨ e = ShowError.agentUnreachable

/-! ## Helper lemmas -/

theorem leNat_toLeBytesU32 (n : Nat) (h : n < 4294967296) :
    leNat (toLeBytesU32 n) = n := by
  have e : leNat (toLeBytesU32 n) =
      n % 256 + 256 * (n / 256 % 256) + 65536 * (n / 65536 % 256) +
        16777216 * (n / 16777216 % 256) := rfl
  rw [e]
  omega

theorem readExact_append (n : Nat) (a b : List Nat) (h : a.length = n) :
    readExact n (a ++ b) = some (a, b) := by
  subst h
  simp [readExact, List.take_left, List.drop_left]

/-- Receiving from a stream that starts with a well-formed frame yields
exactly the framed payload and consumes exactly the frame. -/
theorem receive_frame (n : Nat) (hn : n < 4294967296) (payload rest out : List Nat)
    (hp : payload.length = n) :
    SocketInstance.receive ⟨some (toLeBytesU32 n ++ payload ++ rest, out)⟩ =
      Except.ok (payload, ⟨some (rest, out)⟩) := by
  simp only [SocketInstance.receive, List.append_assoc]
  rw [readExact_append 4 (toLeBytesU32 n) (payload ++ rest) rfl]
  simp only [leNat_toLeBytesU32 n hn]
  rw [readExact_append n payload rest hp]

theorem agentAttempts_ok (id : List Char) (env : Nat → Option (List Nat))
    (r : List Char) (k fuel : Nat) (hf : process_agent id (env k) = Except.ok r) :
    agentAttempts id env k (fuel + 1) = [Event.attempt id (k + 1), Event.success id r] := by
  simp only [agentAttempts]
  rw [hf]

theorem agentAttempts_fail_cont (id : List Char) (env : Nat → Option (List Nat))
    (e : ShowError) (k fuel : Nat) (hk : k + 1 < MAX_ATTEMPTS)
    (hf : process_agent id (env k) = Except.error e) :
    agentAttempts id env k (fuel + 1) =
      Event.attempt id (k + 1) :: Event.retrySleep id (k + 1) ::
        agentAttempts id env (k + 1) fuel := by
  simp only [agentAttempts]
  rw [hf]
  simp only [ge_iff_le, Nat.not_le.mpr hk, if_false]

theorem agentAttempts_fail_last (id : List Char) (env : Nat → Option (List Nat))
    (e : ShowError) (k fuel : Nat) (hk : MAX_ATTEMPTS ≤ k + 1)
    (hf : process_agent id (env k) = Except.error e) :
    agentAttempts id env k (fuel + 1) =
      [Event.attempt id (k + 1), Event.finalFailure id e] := by
  simp only [agentAttempts]
  rw [hf]
  simp only [ge_iff_le, hk, if_true]

/-- Every identifier reaching the loop gets a first `process_agent` call. -/
theorem attempt_one_mem (id : List Char) (env : Nat → Option (List Nat)) :
    Event.attempt id 1 ∈ agentLoop id env := by
  show Event.attempt id 1 ∈ agentAttempts id env 0 (2 + 1)
  cases hf : process_agent id (env 0) with
  | ok r => rw [agentAttempts_ok id env r 0 2 hf]; simp
  | error e => rw [agentAttempts_fail_cont id env e 0 2 (by decide) hf]; simp

/-! ## Claim theorems -/

/-- C1, counterexample.  A frame whose payload is the single byte `0xFF`
(not valid UTF-8) makes `process_agent` fail with the decode error, yet
the driver makes a second attempt for that identifier — contradicting
the claim that a decode failure terminates processing immediately with no
further attempt. -/
theorem decode_failure_is_retried_cex :
    process_agent "001".data (some [1, 0, 0, 0, 255]) = Except.error ShowError.decodeError ∧
    Event.attempt "001".data 2 ∈ agentLoop "001".data (fun _ => some [1, 0, 0, 0, 255]) := by
  decide

/-- C1, amended.  The driver matches only on `Ok`/`Err`: every failure of
`process_agent` — decode failures included, exactly like ConnectionError,
IoError and AgentUnreachable — is retried uniformly while attempts
remain, with a pause before the next attempt. -/
theorem any_failure_retried_uniformly (id : List Char) (env : Nat → Option (List Nat))
    (e : ShowError) (k : Nat) (hk : k + 1 < MAX_ATTEMPTS)
    (hf : process_agent id (env k) = Except.error e) :
    agentAttempts id env k (MAX_ATTEMPTS - k) =
      Event.attempt id (k + 1) :: Event.retrySleep id (k + 1) ::
        agentAttempts id env (k + 1) (MAX_ATTEMPTS - (k + 1)) := by
  have h : MAX_ATTEMPTS - k = (MAX_ATTEMPTS - (k + 1)) + 1 := by
    unfold MAX_ATTEMPTS at hk ⊢
    omega
  rw [h, agentAttempts_fail_cont id env e k (MAX_ATTEMPTS - (k + 1)) hk hf]

/-- Witness for the amended C1 theorem: a decode failure on the first
attempt is followed by a sleep and the loop continuing. -/
theorem any_failure_retried_uniformly_witness :
    agentAttempts "001".data (fun _ => some [1, 0, 0, 0, 255]) 0 (MAX_ATTEMPTS - 0) =
      Event.attempt "001".data 1 :: Event.retrySleep "001".data 1 ::
        agentAttempts "001".data (fun _ => some [1, 0, 0, 0, 255]) 1 (MAX_ATTEMPTS - 1) :=
  any_failure_retried_uniformly "001".data (fun _ => some [1, 0, 0, 0, 255])
    ShowError.decodeError 0 (by decide) (by decide)

/-- C2.  For every byte sequence `p` with length below `2 ^ 32`, `send`
writes exactly the 4-byte little-endian length of `p` followed by `p`,
and `receive` on exactly those bytes yields back exactly `p` (consuming
the whole frame). -/
theorem frame_round_trip (p inp out : List Nat) (_hb : ∀ b ∈ p, b < 256)
    (h : p.length < 4294967296) :
    SocketInstance.send ⟨some (inp, out)⟩ p =
      Except.ok ⟨some (inp, out ++ toLeBytesU32 p.length ++ p)⟩ ∧
    SocketInstance.receive ⟨some (toLeBytesU32 p.length ++ p, out)⟩ =
      Except.ok (p, ⟨some ([], out)⟩) := by
  constructor
  · simp only [SocketInstance.send, Nat.mod_eq_of_lt h]
  · have e := receive_frame p.length h p [] out rfl
    rw [List.append_nil] at e
    exact e

/-- Witness for C2 at the payload `[1, 2, 3]`. -/
theorem frame_round_trip_witness :
    SocketInstance.send ⟨some ([], [])⟩ [1, 2, 3] =
      Except.ok ⟨some ([], [] ++ toLeBytesU32 3 ++ [1, 2, 3])⟩ ∧
    SocketInstance.receive ⟨some (toLeBytesU32 3 ++ [1, 2, 3], [])⟩ =
      Except.ok ([1, 2, 3], ⟨some ([], [])⟩) :=
  frame_round_trip [1, 2, 3] [] [] (by decide) (by decide)

/-- C3.  If all three attempts for an identifier fail with retryable
failures, the trace is exactly: attempt 1, pause, attempt 2, pause,
attempt 3, final failure report — three attempts, a pause between 1 and 2
and between 2 and 3, no fourth attempt, nothing after the report. -/
theorem retry_exhaustion (id : List Char) (env : Nat → Option (List Nat))
    (e₀ e₁ e₂ : ShowError)
    (_r₀ : retryable e₀) (_r₁ : retryable e₁) (_r₂ : retryable e₂)
    (h₀ : process_agent id (env 0) = Except.error e₀)
    (h₁ : process_agent id (env 1) = Except.error e₁)
    (h₂ : process_agent id (env 2) = Except.error e₂) :
    agentLoop id env =
      [Event.attempt id 1, Event.retrySleep id 1, Event.attempt id 2,
       Event.retrySleep id 2, Event.attempt id 3, Event.finalFailure id e₂] := by
  show agentAttempts id env 0 (2 + 1) = _
  rw [agentAttempts_fail_cont id env e₀ 0 2 (by decide) h₀]
  rw [agentAttempts_fail_cont id env e₁ 1 1 (by decide) h₁]
  rw [agentAttempts_fail_last id env e₂ 2 0 (by decide) h₂]

/-- Witness for C3: an endpoint that never accepts a connection. -/
theorem retry_exhaustion_witness :
    agentLoop "001".data (fun _ => none) =
      [Event.attempt "001".data 1, Event.retrySleep "001".data 1,
       Event.attempt "001".data 2, Event.retrySleep "001".data 2,
       Event.attempt "001".data 3, Event.finalFailure "001".data ShowError.connectionError] :=
  retry_exhaustion "001".data (fun _ => none) ShowError.connectionError
    ShowError.connectionError ShowError.connectionError
    (Or.inl rfl) (Or.inl rfl) (Or.inl rfl) rfl rfl rfl

/-- C4.  A decoded response is classified as the AgentUnreachable failure
exactly when its status token equals `"err"` and its body contains
`"Cannot send request"`; every other response is returned as the ordinary
formatted success summary.  Moreover the driver treats an `Ok` result as
terminal for the identifier (no retry) and retries an AgentUnreachable
failure. -/
theorem sentinel_classification (m : List Char) :
    (classify m = Except.error ShowError.agentUnreachable ↔
      (splitnTwoSpace m).1 = "err".data ∧
        containsSub ((splitnTwoSpace m).2.getD []) cannotSendNeedle = true) ∧
    (¬ ((splitnTwoSpace m).1 = "err".data ∧
        containsSub ((splitnTwoSpace m).2.getD []) cannotSendNeedle = true) →
      classify m = Except.ok (okResponse (splitnTwoSpace m).1 ((splitnTwoSpace m).2.getD []))) ∧
    (∀ id env r, process_agent id (env 0) = Except.ok r →
      agentLoop id env = [Event.attempt id 1, Event.success id r]) ∧
    (∀ id env, process_agent id (env 0) = Except.error ShowError.agentUnreachable →
      agentLoop id env = Event.attempt id 1 :: Event.retrySleep id 1 ::
        agentAttempts id env 1 (MAX_ATTEMPTS - 1)) := by
  refine ⟨?_, ?_, ?_, ?_⟩
  · simp only [classify]
    split_ifs with h
    · simp [h]
    · simp [h]
  · intro h
    simp only [classify]
    rw [if_neg h]
  · intro id env r hf
    show agentAttempts id env 0 (2 + 1) = _
    rw [agentAttempts_ok id env r 0 2 hf]
  · intro id env hf
    show agentAttempts id env 0 (2 + 1) = _
    rw [agentAttempts_fail_cont id env ShowError.agentUnreachable 0 2 (by decide) hf]
    rfl

/-- Witness for C4 on the sentinel response text of the spec. -/
theorem sentinel_classification_witness :
    classify "err cannot send request: Cannot send request to agent".data =
      Except.error ShowError.agentUnreachable :=
  (sentinel_classification "err cannot send request: Cannot send request to agent".data).1.mpr
    (by decide)

/-- C5, counterexample.  The code splits at the first *space* only: on
the text `"ok\tx"` the code keeps the tab inside the status token
(status `"ok\tx"`, empty body) while the claimed split at the first
whitespace character yields status `"ok"` and body `"x"`. -/
theorem split_not_at_whitespace_cex :
    ¬ ((splitnTwoSpace "ok\tx".data).1 = (specSplitFirstWs "ok\tx".data).1 ∧
       (splitnTwoSpace "ok\tx".data).2.getD [] = (specSplitFirstWs "ok\tx".data).2) := by
  decide

/-- C5, amended.  The decoded message is split at the first *space*
character `U+0020`: the status token is the longest space-free first
segment, the body is what follows the first space, and when the text
contains no space the whole text is the status token and the body is
empty. -/
theorem split_at_first_space (m : List Char) :
    (splitnTwoSpace m).1 = m.takeWhile (fun c => c != spaceChar) ∧
    (splitnTwoSpace m).2.getD [] = (m.dropWhile (fun c => c != spaceChar)).tail ∧
    ((splitnTwoSpace m).2 = none ↔ spaceChar ∉ m) := by
  induction m with
  | nil => simp [splitnTwoSpace]
  | cons c t ih =>
    obtain ⟨ih1, ih2, ih3⟩ := ih
    by_cases hc : c = spaceChar
    · subst hc
      simp [splitnTwoSpace, List.takeWhile_cons, List.dropWhile_cons]
    · simp [splitnTwoSpace, hc, List.takeWhile_cons, List.dropWhile_cons, ih1, ih2, ih3,
        Ne.symm hc]

/-- C6.  If the stream holds fewer than `4 + n` bytes (with `n` the value
announced by the length header, and the short-header case included),
`receive` fails with the I/O error and returns nothing; whenever it
succeeds, the returned payload has exactly the announced length — never a
truncated or zero-padded one. -/
theorem receive_short_read (inp out : List Nat) :
    (inp.length < 4 + leNat (inp.take 4) →
      SocketInstance.receive ⟨some (inp, out)⟩ = Except.error ShowError.ioError) ∧
    (∀ payload rest, SocketInstance.receive ⟨some (inp, out)⟩ = Except.ok (payload, rest) →
      payload.length = leNat (inp.take 4)) := by
  by_cases h4 : 4 ≤ inp.length
  · by_cases h5 : leNat (inp.take 4) ≤ inp.length - 4
    · have e : SocketInstance.receive ⟨some (inp, out)⟩ =
          Except.ok ((inp.drop 4).take (leNat (inp.take 4)),
            ⟨some (inp.drop (4 + leNat (inp.take 4)), out)⟩) := by
        simp [SocketInstance.receive, readExact, h4, h5]
      constructor
      · intro hlt
        exfalso
        omega
      · intro payload rest hok
        rw [e] at hok
        have hp : payload = (inp.drop 4).take (leNat (inp.take 4)) :=
          (congrArg Prod.fst (Except.ok.inj hok)).symm
        rw [hp, List.length_take, List.length_drop]
        exact Nat.min_eq_left h5
    · have e : SocketInstance.receive ⟨some (inp, out)⟩ = Except.error ShowError.ioError := by
        simp [SocketInstance.receive, readExact, h4, h5]
      exact ⟨fun _ => e, fun payload rest hok => by rw [e] at hok; cases hok⟩
  · have e : SocketInstance.receive ⟨some (inp, out)⟩ = Except.error ShowError.ioError := by
      simp [SocketInstance.receive, readExact, h4]
    exact ⟨fun _ => e, fun payload rest hok => by rw [e] at hok; cases hok⟩

/-- Witness for C6: a header announcing 5 bytes with only 2 delivered. -/
theorem receive_short_read_witness :
    SocketInstance.receive ⟨some ([5, 0, 0, 0, 1, 2], [])⟩ =
      Except.error ShowError.ioError :=
  (receive_short_read [5, 0, 0, 0, 1, 2] []).1 (by decide)

/-- C7.  On a channel holding no live connection, `send` and `receive`
both fail with the distinct not-connected error; the guard fires before
any byte is written or read, so the error carries no partial I/O. -/
theorem not_connected_guard (msg : List Nat) :
    SocketInstance.send ⟨none⟩ msg = Except.error ShowError.notConnected ∧
    SocketInstance.receive ⟨none⟩ = Except.error ShowError.notConnected :=
  ⟨rfl, rfl⟩

/-- C8.  The request message is exactly the identifier followed by
`"com"`, `"getconfig"`, `"active-response"`, joined by single spaces, the
identifier passed through verbatim with no escaping. -/
theorem request_message_format (agent_id : List Char) :
    requestMsg agent_id = agent_id ++ " com getconfig active-response".data := by
  simp only [requestMsg, List.append_assoc]
  congr 1

/-- C9.  The driver processes the identifiers in input order — the batch
trace is the concatenation of the per-identifier traces in that order —
and every identifier of the batch is attempted regardless of how the
earlier ones fared: exhaustion of one never aborts the batch. -/
theorem batch_isolation (ids : List (List Char))
    (env : List Char → Nat → Option (List Nat)) :
    mainLoop ids env = (ids.map (fun id => agentLoop id (env id))).flatten ∧
    ∀ id, id ∈ ids → Event.attempt id 1 ∈ mainLoop ids env := by
  induction ids with
  | nil => simp [mainLoop]
  | cons id rest ih =>
    obtain ⟨ih1, ih2⟩ := ih
    simp only [mainLoop]
    constructor
    · simp [ih1]
    · intro id' hmem
      rcases List.mem_cons.mp hmem with h | h
      · subst h
        exact List.mem_append_left _ (attempt_one_mem id' (env id'))
      · exact List.mem_append_right _ (ih2 id' h)

/-- Witness for C9: the second identifier is attempted although the first
one exhausts its retries. -/
theorem batch_isolation_witness :
    Event.attempt "002".data 1 ∈
      mainLoop ["001".data, "002".data] (fun _ _ => none) :=
  (batch_isolation ["001".data, "002".data] (fun _ _ => none)).2 "002".data (by decide)

/-- C10.  `receive` imposes no upper bound on the header value: for every
`n < 2 ^ 32`, a stream carrying a header announcing `n` followed by `n`
payload bytes yields exactly those `n` bytes, consuming nothing beyond
the frame — in particular `n = 0` returns the empty payload having read
only the header. -/
theorem receive_exact_header_length (n : Nat) (hn : n < 4294967296)
    (payload rest out : List Nat) (hp : payload.length = n) :
    SocketInstance.receive ⟨some (toLeBytesU32 n ++ payload ++ rest, out)⟩ =
      Except.ok (payload, ⟨some (rest, out)⟩) :=
  receive_frame n hn payload rest out hp

/-- Witness for C10 at `n = 0`: empty payload, trailing bytes untouched. -/
theorem receive_exact_header_length_witness :
    SocketInstance.receive ⟨some (toLeBytesU32 0 ++ [] ++ [9, 9], [])⟩ =
      Except.ok ([], ⟨some ([9, 9], [])⟩) :=
  receive_exact_header_length 0 (by decide) [] [9, 9] [] rfl

end AgentARChecker
